import Mathlib

/-!
Shallow embedding of the voice-note capture core of the vox-noto repository:
the content-quality scorer (lib/content-analysis), the two string-similarity
measures (the word-overlap similarity inside the transcription hook and the
Levenshtein similarity in lib), and the accumulation/flush state machine of
the `useAudioTranscription` hook.

Modelling conventions:
- JavaScript strings are modelled as Lean `String` (a list of characters);
  `String.prototype.toLowerCase` is modelled on the ASCII fragment
  (`A`-`Z` map to `a`-`z`, every other character is fixed), `trim` and the
  regex class `\s` are modelled with `Char.isWhitespace`.
- JavaScript numbers are modelled as exact rationals (`ℚ`); timestamps
  (`Date.now()`) as integers (milliseconds).
- Regex tests are compiled pattern-by-pattern into executable matchers over
  `List Char`; each matcher is documented with the regex it embeds.
-/

namespace VoxNoto

/-- Whitespace predicate modelling the regex class `\s` and the characters
stripped by `String.prototype.trim` (ASCII fragment). -/
def isWS (c : Char) : Bool := c.isWhitespace

/-- ASCII uppercase letter, the regex class `[A-Z]`. -/
def isAsciiUpper (c : Char) : Bool := 65 ≤ c.toNat && c.toNat ≤ 90

/-- ASCII lowercase letter, the regex class `[a-z]`. -/
def isAsciiLower (c : Char) : Bool := 97 ≤ c.toNat && c.toNat ≤ 122

/-- Word character, the regex class `\w` = `[A-Za-z0-9_]`. -/
def isWordChar (c : Char) : Bool := c.isAlphanum || c == '_'

/-- Lowercasing of one character, modelling `toLowerCase` on the ASCII
fragment: `A`-`Z` (codes 65-90) shift to `a`-`z` (codes 97-122). -/
def lowerChar (c : Char) : Char :=
  if 65 ≤ c.toNat ∧ c.toNat ≤ 90 then Char.ofNat (c.toNat + 32) else c

/-- Model of `String.prototype.toLowerCase` (ASCII fragment). -/
def jsToLower (s : String) : String := ⟨s.data.map lowerChar⟩

/-- Trimming of a character list: drop leading whitespace, then drop trailing
whitespace. -/
def jsTrimList (l : List Char) : List Char :=
  ((l.dropWhile isWS).reverse.dropWhile isWS).reverse

/-- Model of `String.prototype.trim`. -/
def jsTrim (s : String) : String := ⟨jsTrimList s.data⟩

/-- Model of `String.prototype.split(' ')` (single-character separator):
the pieces between occurrences of `' '`, empty pieces included, so the
result always has (number of spaces + 1) elements. -/
def splitOnSpace : List Char → List (List Char)
  | [] => [[]]
  | c :: r =>
    if c = ' ' then [] :: splitOnSpace r
    else
      match splitOnSpace r with
      | [] => [[c]]
      | h :: t => (c :: h) :: t

/-- Length of `s.split(' ')` in the source. -/
def splitSpaceCount (s : String) : Nat := (splitOnSpace s.data).length

/-- Worker for `split(/\s+/)`: `acc` holds the current piece reversed; a
whitespace character ends the piece and the whole maximal whitespace run is
consumed before the next piece starts. The fuel argument keeps the
recursion structural (so that it reduces inside the kernel); fuel equal to
the input length always suffices because every step consumes at least one
character. -/
def jsSplitWsAux : Nat → List Char → List Char → List String
  | _, acc, [] => [String.mk acc.reverse]
  | 0, acc, l => [String.mk (acc.reverse ++ l)]
  | fuel + 1, acc, c :: r =>
    if isWS c then
      String.mk acc.reverse :: jsSplitWsAux fuel [] (r.dropWhile isWS)
    else
      jsSplitWsAux fuel (c :: acc) r

/-- Model of `String.prototype.split(/\s+/)`: pieces between maximal
whitespace runs (a leading or trailing run contributes an empty piece,
exactly as in JavaScript). -/
def jsSplitWs (s : String) : List String := jsSplitWsAux s.data.length [] s.data

/-- Matcher for a literal: consumes the word `w` if it is a prefix of the
input, returning the rest. -/
def litM (w : List Char) (l : List Char) : Option (List Char) :=
  if w.isPrefixOf l then some (l.drop w.length) else none

/-- Matcher for `p+` (greedy one-or-more of a character class). -/
def plusM (p : Char → Bool) : List Char → Option (List Char)
  | [] => none
  | c :: r => if p c then some (r.dropWhile p) else none

/-- Unanchored regex test: `f` matches at some suffix of the input. -/
def testAnywhere (f : List Char → Bool) : List Char → Bool
  | [] => f []
  | c :: r => f (c :: r) || testAnywhere f r

/-- First alternative (in order) of `ws` that is a prefix of the input;
returns the rest of the input. This is the JavaScript alternation
semantics when no pattern follows the alternation. -/
def firstAltM : List String → List Char → Option (List Char)
  | [], _ => none
  | w :: rest, l =>
    match litM w.data l with
    | some r => some r
    | none => firstAltM rest l

/-- Test for `/(?:w1|w2|...)/`: some alternative occurs as a substring. -/
def containsAnyWord (ws : List String) (s : String) : Bool :=
  testAnywhere (fun l => (firstAltM ws l).isSome) s.data

/-- Model of `String.prototype.includes(pat)`. -/
def containsStr (s : String) (pat : String) : Bool :=
  testAnywhere (fun l => pat.data.isPrefixOf l) s.data

/-- Test for `/(?:w1|w2|...)\s+/`: some alternative occurs followed by at
least one whitespace character (every alternative is tried, as JavaScript
backtracks into the alternation). -/
def followedByWsTest (ws : List String) (s : String) : Bool :=
  testAnywhere
    (fun l => ws.any fun w =>
      match litM w.data l with
      | some r => (plusM isWS r).isSome
      | none => false)
    s.data

/-- Counter worker for a global regex made of literal alternatives: at each
position the first matching alternative is consumed and counted, otherwise
the scan advances one character. The fuel argument (instantiated with the
input length, which suffices because every alternative is nonempty) makes
the recursion structural. -/
def countMatchesAux (ws : List String) : Nat → List Char → Nat
  | 0, _ => 0
  | _ + 1, [] => 0
  | fuel + 1, c :: r =>
    match firstAltM ws (c :: r) with
    | some rest => 1 + countMatchesAux ws fuel rest
    | none => countMatchesAux ws fuel r

/-- Model of `(s.match(/(?:w1|w2|...)/g) || []).length`. -/
def countMatches (ws : List String) (s : String) : Nat :=
  countMatchesAux ws s.data.length s.data

/-! Content-quality scorer, embedding `analyzeContentQuality` from
`lib/content-analysis`. The `reason` explanation string of the source is
presentation-only and not part of any claim, so the result record carries
the `score` and `isNoteworthy` fields. -/

/-- Result record of `analyzeContentQuality` (without the presentation-only
`reason` string). -/
structure ContentQuality where
  score : ℚ
  isNoteworthy : Bool
deriving Repr, DecidableEq

/-- Test of `/\d+(\.\d+)?(\s*%)?/`: since the tail groups are optional, the
pattern matches exactly when some digit occurs. -/
def numbersTest (s : String) : Bool := s.data.any fun c => c.isDigit

/-- Lookbehind `(?<!\.\s+)` at a position whose reversed prefix is `rev`:
true when the position is immediately preceded by one or more whitespace
characters preceded by a dot. -/
def precededByDotWs (rev : List Char) : Bool :=
  match rev with
  | [] => false
  | c :: _ =>
    isWS c &&
      (match rev.dropWhile isWS with
       | d :: _ => d == '.'
       | [] => false)

/-- Scanner for `/(?<!\.\s+)[A-Z][a-z]+/`: an uppercase letter followed by a
lowercase letter (`[a-z]+` needs one), not preceded by dot-plus-whitespace;
`rev` is the reversed prefix already scanned. -/
def properNounsScan : List Char → List Char → Bool
  | _, [] => false
  | rev, c :: r =>
    (isAsciiUpper c &&
        (match r with
         | d :: _ => isAsciiLower d
         | [] => false) &&
      !precededByDotWs rev)
      || properNounsScan (c :: rev) r

/-- Test of the proper-nouns indicator pattern `/(?<!\.\s+)[A-Z][a-z]+/`. -/
def properNounsTest (s : String) : Bool := properNounsScan [] s.data

/-- Alternatives of the factual-statements indicator
`/(?:is|are|was|were|has|have|had|can|could|should|would|will)\s+/`. -/
def factualWords : List String :=
  ["is", "are", "was", "were", "has", "have", "had", "can", "could",
   "should", "would", "will"]

/-- Alternatives of the technical-terms indicator; the trailing `s?` of the
source pattern is optional, so the bare word occurring as a substring is
exactly the test. -/
def technicalWords : List String :=
  ["algorithm", "function", "process", "method", "technique", "system",
   "framework", "api", "interface", "component", "module", "database",
   "server", "client", "user", "data", "information", "analysis",
   "research", "study", "report", "result", "finding"]

/-- Alternatives of the comparisons indicator. -/
def comparisonWords : List String :=
  ["more", "less", "better", "worse", "higher", "lower", "increase",
   "decrease", "improve", "reduce", "enhance", "diminish"]

/-- Test of the time-references indicator
`/(?:today|yesterday|tomorrow|last\s+\w+|next\s+\w+|in\s+\d+\s+\w+|during|after|before|while|when)/`. -/
def timeRefsTest (s : String) : Bool :=
  testAnywhere
    (fun l =>
      (firstAltM ["today", "yesterday", "tomorrow"] l).isSome
        || ((litM "last".data l).bind (plusM isWS) |>.bind (plusM isWordChar)).isSome
        || ((litM "next".data l).bind (plusM isWS) |>.bind (plusM isWordChar)).isSome
        || ((litM "in".data l).bind (plusM isWS) |>.bind (plusM Char.isDigit)
              |>.bind (plusM isWS) |>.bind (plusM isWordChar)).isSome
        || (firstAltM ["during", "after", "before", "while", "when"] l).isSome)
    s.data

/-- Alternatives of the causal-relationships indicator. -/
def causalWords : List String :=
  ["because", "since", "as", "therefore", "thus", "hence", "consequently",
   "due to", "results in", "causes", "affects", "influences", "impacts",
   "leads to", "follows from"]

/-- Alternatives of the structured-information indicator. -/
def structuredWords : List String :=
  ["first", "second", "third", "fourth", "fifth", "finally", "lastly",
   "next", "then", "also", "additionally", "furthermore", "moreover",
   "in addition"]

/-- Alternatives of the definitions indicator. -/
def definitionWords : List String :=
  ["means", "refers to", "is defined as", "is a", "are", "represents",
   "signifies", "denotes", "indicates", "suggests"]

/-- Alternatives of the names indicator. -/
def nameWords : List String :=
  ["john", "jane", "bob", "alice", "david", "sarah", "michael", "james",
   "robert", "mary", "william", "elizabeth", "richard", "joseph", "thomas",
   "charles", "susan", "jessica", "daniel", "jennifer"]

/-- Alternatives of the work-terms indicator. -/
def workWords : List String :=
  ["meeting", "call", "conference", "discussion", "presentation", "project",
   "deadline", "task", "goal", "objective", "plan", "strategy", "team",
   "group", "department", "manager", "client", "customer", "email",
   "report", "document", "file", "folder"]

/-- Alternatives of the locations indicator. -/
def locationWords : List String :=
  ["office", "room", "building", "street", "avenue", "road", "boulevard",
   "city", "town", "state", "country", "region", "area", "location",
   "place", "site"]

/-- Alternatives of the action-verbs indicator. -/
def actionWords : List String :=
  ["create", "build", "develop", "implement", "design", "make", "start",
   "begin", "finish", "complete", "deliver", "send", "receive", "update",
   "change", "modify", "improve", "fix", "solve"]

/-- First global filler pattern
`/(?:um|uh|like|you know|i mean|sort of|kind of|basically|actually|literally|honestly|to be honest|i guess|i think|i believe|in my opinion)/g`. -/
def fillerWords1 : List String :=
  ["um", "uh", "like", "you know", "i mean", "sort of", "kind of",
   "basically", "actually", "literally", "honestly", "to be honest",
   "i guess", "i think", "i believe", "in my opinion"]

/-- Second global filler pattern
`/(?:so|well|right|okay|now|anyway|anyhow|whatever|as i was saying|where was i)/g`. -/
def fillerWords2 : List String :=
  ["so", "well", "right", "okay", "now", "anyway", "anyhow", "whatever",
   "as i was saying", "where was i"]

/-- Total filler-token count: the sum of the match counts of the two global
filler patterns, as accumulated by the source `forEach`. -/
def fillerCountOf (s : String) : Nat :=
  countMatches fillerWords1 s + countMatches fillerWords2 s

/-- Test of the question pattern (flag `i`; the scrutinee is already
lowercased)
`/\?|(?:who|what|when|where|why|how)\s+(?:is|are|was|were|will|would|could|should|do|does|did|can|could)\s+(?:the|a|an|it|they|we|you|i)\s+/i`. -/
def questionTest (s : String) : Bool :=
  s.data.contains '?'
    || testAnywhere
      (fun l =>
        ["who", "what", "when", "where", "why", "how"].any fun w1 =>
          match (litM w1.data l).bind (plusM isWS) with
          | none => false
          | some r2 =>
            ["is", "are", "was", "were", "will", "would", "could", "should",
             "do", "does", "did", "can", "could"].any fun w2 =>
              match (litM w2.data r2).bind (plusM isWS) with
              | none => false
              | some r4 =>
                ["the", "a", "an", "it", "they", "we", "you", "i"].any fun w3 =>
                  match (litM w3.data r4).bind (plusM isWS) with
                  | none => false
                  | some _ => true)
      s.data

/-- Threshold of noteworthiness in `analyzeContentQuality` (0.15). -/
def noteworthyThreshold : ℚ := 3 / 20

/-- Pre-clamp score of the main path of `analyzeContentQuality`: the base
0.15 for meeting the minimum length, plus the weight of every matched
indicator (steps 2 of the source, in `forEach` order), minus the
filler-density penalty (step 3), adjusted for content length (step 4) and
for an interrogative pattern (step 5). -/
def rawScore (normalizedText : String) (wordCount : Nat) : ℚ :=
  let score : ℚ := 3 / 20
  let score := score + (if numbersTest normalizedText then 12 / 100 else 0)
  let score := score + (if properNounsTest normalizedText then 8 / 100 else 0)
  let score := score + (if followedByWsTest factualWords normalizedText then 5 / 100 else 0)
  let score := score + (if containsAnyWord technicalWords normalizedText then 8 / 100 else 0)
  let score := score + (if containsAnyWord comparisonWords normalizedText then 5 / 100 else 0)
  let score := score + (if timeRefsTest normalizedText then 5 / 100 else 0)
  let score := score + (if containsAnyWord causalWords normalizedText then 8 / 100 else 0)
  let score := score + (if containsAnyWord structuredWords normalizedText then 5 / 100 else 0)
  let score := score + (if containsAnyWord definitionWords normalizedText then 5 / 100 else 0)
  let score := score + (if containsAnyWord nameWords normalizedText then 5 / 100 else 0)
  let score := score + (if containsAnyWord workWords normalizedText then 5 / 100 else 0)
  let score := score + (if containsAnyWord locationWords normalizedText then 5 / 100 else 0)
  let score := score + (if containsAnyWord actionWords normalizedText then 5 / 100 else 0)
  let fillerDensity : ℚ := (fillerCountOf normalizedText : ℚ) / (wordCount : ℚ)
  let score := score - fillerDensity * (1 / 10)
  let score :=
    if 5 < wordCount ∧ wordCount < 100 then score + 5 / 100
    else if 150 < wordCount then score - 5 / 100
    else score
  if questionTest normalizedText then score - 2 / 100 else score

/-- Scorer `analyzeContentQuality` of `lib/content-analysis`: empty or
whitespace-only text scores 0; fewer than 3 words score 0.1 and
short-circuit; otherwise the `rawScore` of the lowercased trimmed text is
clamped to [0, 1]; noteworthy means the clamped score is at least 0.15. -/
def analyzeContentQuality (text : String) : ContentQuality :=
  if jsTrim text = "" then ⟨0, false⟩
  else
    let normalizedText := jsTrim (jsToLower text)
    let wordCount := (jsSplitWs normalizedText).length
    if wordCount < 3 then ⟨1 / 10, false⟩
    else
      let score := max 0 (min 1 (rawScore normalizedText wordCount))
      ⟨score, decide (noteworthyThreshold ≤ score)⟩

/-! Similarity engine: the word-overlap similarity defined inside the
`useAudioTranscription` hook and the Levenshtein similarity of
`lib/string-similarity`. -/

/-- Word-overlap similarity `calculateSimpleStringSimilarity` of the hook:
identical lowercased strings score 1; if either is empty the score is 0;
otherwise the number of words of the first also occurring in the second
(counted with multiplicity) divided by the larger word count. -/
def calculateSimpleStringSimilarity (str1 str2 : String) : ℚ :=
  let s1 := jsToLower str1
  let s2 := jsToLower str2
  if s1 = s2 then 1
  else if s1.data.length = 0 ∨ s2.data.length = 0 then 0
  else
    let words1 := jsSplitWs s1
    let words2 := jsSplitWs s2
    let matchCount := (words1.filter fun word => words2.contains word).length
    (matchCount : ℚ) / ((max words1.length words2.length : Nat) : ℚ)

/-- Levenshtein dynamic-programming matrix entry `matrix[i][j]` of
`calculateStringSimilarity`: the edit distance between the first `i`
characters of `a` and the first `j` characters of `b`, computed by the
recurrence of the source (deletion, insertion, substitution with cost 0 on
equal characters). The fuel argument keeps the recursion structural; fuel
`i + j` always suffices since each recursive call strictly decreases the
index sum. -/
def levMatrixF (a b : List Char) : Nat → Nat → Nat → Nat
  | _, 0, j => j
  | _, i + 1, 0 => i + 1
  | 0, _ + 1, _ + 1 => 0
  | fuel + 1, i + 1, j + 1 =>
    let cost := if a.getD i ' ' = b.getD j ' ' then 0 else 1
    min (levMatrixF a b fuel i (j + 1) + 1)
      (min (levMatrixF a b fuel (i + 1) j + 1)
        (levMatrixF a b fuel i j + cost))

/-- Entry `matrix[i][j]` of the Levenshtein matrix with sufficient fuel. -/
def levMatrix (a b : List Char) (i j : Nat) : Nat := levMatrixF a b (i + j) i j

/-- Levenshtein similarity `calculateStringSimilarity` of
`lib/string-similarity`: identical strings score 1; if either is empty the
score is 0; otherwise one minus the edit distance between the lowercased
trimmed strings divided by the larger length (1 when both normalize to
empty). -/
def calculateStringSimilarity (str1 str2 : String) : ℚ :=
  if str1 = str2 then 1
  else if str1.data.length = 0 ∨ str2.data.length = 0 then 0
  else
    let a := jsTrim (jsToLower str1)
    let b := jsTrim (jsToLower str2)
    let maxLength := max a.data.length b.data.length
    if maxLength = 0 then 1
    else 1 - ((levMatrix a.data b.data a.data.length b.data.length : Nat) : ℚ) / (maxLength : ℚ)

/-! Accumulation/flush state machine of the `useAudioTranscription` hook.
Timestamps (`Date.now()`) are integer milliseconds. The external effects
that do not influence the claims are abstracted: `produced` tells whether
`generateTopicalNote` returned a non-empty note for the flushed content
(the source updates `lastProcessingTimeRef` only in that case), and the
`scored` component of a step's result is the candidate text handed to
`generateTopicalNote` (and hence to the quality scorer), `none` when no
flush happened. Recorder teardown/restart side effects are modelled by the
`recordingRestarted` flag under the assumption that the session is still
active. -/

/-- Configuration constant `pauseDetectionThreshold` (ms). -/
def pauseDetectionThreshold : Int := 400

/-- Configuration constant `minSilenceLevel` (0.02). -/
def minSilenceLevel : ℚ := 1 / 50

/-- Configuration constant `minContentLength` (words). -/
def minContentLength : Nat := 3

/-- Configuration constant `maxContentLength` (words). -/
def maxContentLength : Nat := 150

/-- Configuration constant `minTimeBetweenNotes` (ms). -/
def minTimeBetweenNotes : Int := 800

/-- Configuration constant `maxTranscriptionErrors`. -/
def maxTranscriptionErrors : Nat := 3

/-- Fallback phrase appended after repeated transcription errors. -/
def fallbackMessage : String := "Speech detected but transcription unavailable."

/-- Minimum viable audio blob size in bytes (inline literal 800). -/
def minViableBlobSize : Nat := 800

/-- Staleness ceiling in ms (inline literal 3000 on the success path). -/
def stalenessThreshold : Int := 3000

/-- Mutable session state of the hook: the refs that drive segmentation
(`accumulatedTranscriptionRef`, `silenceStartTimeRef`,
`lastProcessingTimeRef`, `audioLevelHistoryRef`,
`transcriptionErrorCountRef`, `audioChunksRef`, the last one keeping only
the byte sizes of the recorded chunks). -/
structure HookState where
  accumulated : String
  silenceStart : Option Int
  lastProcessing : Int
  audioLevelHistory : List ℚ
  errorCount : Nat
  audioChunks : List Nat
deriving Repr, DecidableEq

/-- Step `processAccumulatedContent`: if the trimmed buffer is non-empty
and has at least `minContentLength` space-separated tokens, the content is
handed to `generateTopicalNote` (the quality scorer), the buffer is
cleared, and `lastProcessingTimeRef` is set to `now` when a note was
produced; otherwise nothing happens. -/
def processAccumulatedContent (st : HookState) (now : Int)
    (produced : String → Bool) : HookState × Option String :=
  let content := jsTrim st.accumulated
  if content ≠ "" ∧ minContentLength ≤ splitSpaceCount content then
    ({ st with
        accumulated := "",
        lastProcessing := if produced content then now else st.lastProcessing },
      some content)
  else (st, none)

/-- Step `checkForSpeechPause`, run on every audio sample: a length flush
when the buffer reaches `maxContentLength` tokens and the time gate is
strictly exceeded; otherwise, with at least 5 samples of history whose
last 5 are all strictly below `minSilenceLevel`, silence tracking starts
or, once `pauseDetectionThreshold` is reached, a pause flush subject to
the word-count and strict time gates; any loud sample resets silence
tracking. -/
def checkForSpeechPause (st : HookState) (now : Int)
    (produced : String → Bool) : HookState × Option String :=
  let timeSinceLastProcessing := now - st.lastProcessing
  let wordCount := splitSpaceCount st.accumulated
  if maxContentLength ≤ wordCount ∧ minTimeBetweenNotes < timeSinceLastProcessing then
    processAccumulatedContent st now produced
  else if st.audioLevelHistory.length < 5 then (st, none)
  else
    let recentLevels := st.audioLevelHistory.drop (st.audioLevelHistory.length - 5)
    let isCurrentlySilent := recentLevels.all fun level => decide (level < minSilenceLevel)
    if isCurrentlySilent then
      match st.silenceStart with
      | none => ({ st with silenceStart := some now }, none)
      | some t0 =>
        if pauseDetectionThreshold ≤ now - t0 then
          if minContentLength ≤ wordCount ∧ minTimeBetweenNotes < timeSinceLastProcessing then
            processAccumulatedContent st now produced
          else (st, none)
        else (st, none)
    else ({ st with silenceStart := none }, none)

/-- Step `handleTranscriptionError`: the consecutive-error counter
increments; at `maxTranscriptionErrors` the fallback phrase is appended
(unless the buffer already contains it) and the buffer is processed. -/
def handleTranscriptionError (st : HookState) (now : Int)
    (produced : String → Bool) : HookState × Option String :=
  let st1 := { st with errorCount := st.errorCount + 1 }
  if maxTranscriptionErrors ≤ st1.errorCount then
    if containsStr st1.accumulated fallbackMessage then (st1, none)
    else
      processAccumulatedContent
        { st1 with accumulated := st1.accumulated ++ " " ++ fallbackMessage }
        now produced
  else (st1, none)

/-- Success path after a transcription call returned non-empty text: the
fragment is appended with a separating space and the staleness rule is
evaluated (flush when more than `stalenessThreshold` ms have elapsed and
the trimmed buffer is non-empty). -/
def appendTranscript (st : HookState) (text : String) (now : Int)
    (produced : String → Bool) : HookState × Option String :=
  let st1 := { st with accumulated := st.accumulated ++ " " ++ text }
  let timeSinceLastProcessing := now - st1.lastProcessing
  if stalenessThreshold < timeSinceLastProcessing ∧ 0 < (jsTrim st1.accumulated).data.length then
    processAccumulatedContent st1 now produced
  else (st1, none)

/-- Handling of one transcription outcome inside `processAudioChunks`:
`none` models an API error; on success the error counter resets before the
returned text is inspected, and empty text is routed to the error
handler. -/
def processTranscriptionResult (st : HookState) (now : Int)
    (result : Option String) (produced : String → Bool) : HookState × Option String :=
  match result with
  | none => handleTranscriptionError st now produced
  | some text =>
    let st0 := { st with errorCount := 0 }
    if text ≠ "" then appendTranscript st0 text now produced
    else handleTranscriptionError st0 now produced

/-- Observable outcome of one `processAudioChunks` run. -/
structure ChunkOutcome where
  transcriptionInvoked : Bool
  recordingRestarted : Bool
  scored : Option String
deriving Repr, DecidableEq

/-- Step `processAudioChunks`: with recorded chunks, the assembled blob
(whose size is the sum of the chunk sizes) is discarded without invoking
transcription when smaller than `minViableBlobSize`; otherwise the
transcription outcome is processed; in every branch the chunk list is
cleared and recording restarts (session assumed active). -/
def processAudioChunks (st : HookState) (now : Int)
    (result : Option String) (produced : String → Bool) : HookState × ChunkOutcome :=
  if 0 < st.audioChunks.length then
    let blobSize := st.audioChunks.sum
    if blobSize < minViableBlobSize then
      ({ st with audioChunks := [] }, ⟨false, true, none⟩)
    else
      let res := processTranscriptionResult st now result produced
      ({ res.1 with audioChunks := [] }, ⟨true, true, res.2⟩)
  else (st, ⟨false, true, none⟩)

/-- Final flush of `stopRecording` (teardown of the recorder, stream and
audio context is not modelled): the remaining accumulated content is
processed whenever its trimmed text is non-empty. -/
def stopRecording (st : HookState) (now : Int)
    (produced : String → Bool) : HookState × Option String :=
  if jsTrim st.accumulated ≠ "" then processAccumulatedContent st now produced
  else (st, none)

/-! Helper lemmas about the string primitives. -/

/-- Characters with equal code points are equal. -/
theorem char_eq_of_toNat_eq {c₁ c₂ : Char} (h : c₁.toNat = c₂.toNat) : c₁ = c₂ :=
  Char.ext (UInt32.ext h)

/-- Code point of a lowercased character. -/
theorem lowerChar_toNat (c : Char) :
    (lowerChar c).toNat =
      if 65 ≤ c.toNat ∧ c.toNat ≤ 90 then c.toNat + 32 else c.toNat := by
  unfold lowerChar
  split
  · next h =>
    have hv : (c.toNat + 32).isValidChar := by
      left
      omega
    rw [Char.ofNat, dif_pos hv]
    simp [Char.toNat, Char.ofNatAux, UInt32.toNat, BitVec.toNat_ofNatLt]
  · rfl

/-- Lowercasing a character is idempotent. -/
theorem lowerChar_idem (c : Char) : lowerChar (lowerChar c) = lowerChar c := by
  apply char_eq_of_toNat_eq
  rw [lowerChar_toNat, lowerChar_toNat c]
  split_ifs <;> omega

/-- Lowercasing never yields an ASCII uppercase letter. -/
theorem isAsciiUpper_lowerChar (c : Char) : isAsciiUpper (lowerChar c) = false := by
  have h := lowerChar_toNat c
  unfold isAsciiUpper
  rw [h]
  split <;> next hc =>
    simp only [Bool.and_eq_false_iff, decide_eq_false_iff_not, not_le]
    omega

/-- Whitespace characters are exactly code points 32, 9, 13 and 10. -/
theorem isWS_iff_toNat (c : Char) :
    isWS c = true ↔ c.toNat = 32 ∨ c.toNat = 9 ∨ c.toNat = 13 ∨ c.toNat = 10 := by
  unfold isWS Char.isWhitespace
  constructor
  · intro h
    simp only [Bool.or_eq_true, decide_eq_true_eq] at h
    rcases h with ((h | h) | h) | h <;> subst h <;> simp [Char.toNat]
  · intro h
    simp only [Bool.or_eq_true, decide_eq_true_eq]
    rcases h with h | h | h | h
    · exact Or.inl <| Or.inl <| Or.inl <| char_eq_of_toNat_eq h
    · exact Or.inl <| Or.inl <| Or.inr <| char_eq_of_toNat_eq h
    · exact Or.inl <| Or.inr <| char_eq_of_toNat_eq h
    · exact Or.inr <| char_eq_of_toNat_eq h

/-- Lowercasing preserves the whitespace predicate. -/
theorem isWS_lowerChar (c : Char) : isWS (lowerChar c) = isWS c := by
  have h := lowerChar_toNat c
  by_cases hc : 65 ≤ c.toNat ∧ c.toNat ≤ 90
  · rw [if_pos hc] at h
    have h1 : isWS (lowerChar c) = false := by
      by_contra hw
      have := (isWS_iff_toNat (lowerChar c)).mp (by simpa using hw)
      omega
    have h2 : isWS c = false := by
      by_contra hw
      have := (isWS_iff_toNat c).mp (by simpa using hw)
      omega
    rw [h1, h2]
  · rw [if_neg hc] at h
    rw [char_eq_of_toNat_eq h]

/-- Idempotence of the string-level lowercasing. -/
theorem jsToLower_idem (s : String) : jsToLower (jsToLower s) = jsToLower s := by
  unfold jsToLower
  simp [List.map_map, Function.comp_def, lowerChar_idem]

/-- Lowercasing commutes with trimming. -/
theorem jsTrim_jsToLower (s : String) : jsTrim (jsToLower s) = jsToLower (jsTrim s) := by
  unfold jsTrim jsToLower jsTrimList
  have hfun : (isWS ∘ lowerChar) = isWS := funext isWS_lowerChar
  have hmap : ∀ l : List Char, (l.map lowerChar).dropWhile isWS =
      (l.dropWhile isWS).map lowerChar := by
    intro l
    rw [List.dropWhile_map, hfun]
  apply congrArg String.mk
  rw [hmap, ← List.map_reverse, hmap, ← List.map_reverse]

/-- A string is the empty string exactly when its character list is empty. -/
theorem string_eq_empty_iff (l : List Char) : String.mk l = "" ↔ l = [] := by
  constructor
  · intro h
    have := congrArg String.data h
    simpa using this
  · intro h
    rw [h]

/-- Lowercasing maps the empty string and only it to the empty string. -/
theorem jsToLower_eq_empty_iff (s : String) : jsToLower s = "" ↔ s = "" := by
  cases s with
  | mk l =>
    unfold jsToLower
    rw [string_eq_empty_iff, string_eq_empty_iff, List.map_eq_nil_iff]

/-- The lowercased trimmed string is empty exactly when the trimmed string
is. -/
theorem jsTrim_jsToLower_eq_empty_iff (s : String) :
    jsTrim (jsToLower s) = "" ↔ jsTrim s = "" := by
  rw [jsTrim_jsToLower, jsToLower_eq_empty_iff]

/-- `splitOnSpace` never returns the empty list. -/
theorem splitOnSpace_ne_nil (l : List Char) : splitOnSpace l ≠ [] := by
  induction l with
  | nil => simp [splitOnSpace]
  | cons c r ih =>
    unfold splitOnSpace
    split
    · simp
    · match h : splitOnSpace r with
      | [] => simp
      | h' :: t => simp

/-- The number of `split(' ')` pieces is the number of spaces plus one. -/
theorem length_splitOnSpace (l : List Char) :
    (splitOnSpace l).length = l.countP (fun c => c == ' ') + 1 := by
  induction l with
  | nil => rfl
  | cons c r ih =>
    unfold splitOnSpace
    by_cases hc : c = ' '
    · rw [if_pos hc]
      simp [List.countP_cons, hc, ih]
    · rw [if_neg hc]
      match h : splitOnSpace r with
      | [] => exact absurd h (splitOnSpace_ne_nil r)
      | h' :: t =>
        rw [h] at ih
        simp only [List.length_cons] at ih ⊢
        simp [List.countP_cons, hc, ih]

/-- The trimmed buffer is non-empty whenever its token count reaches the
minimum word gate. -/
theorem ne_empty_of_splitSpaceCount (s : String) (h : minContentLength ≤ splitSpaceCount s) :
    s ≠ "" := by
  intro he
  subst he
  simp [splitSpaceCount, splitOnSpace, minContentLength] at h

/-- The gate of `processAccumulatedContent`: when the trimmed buffer has at
least `minContentLength` space-separated tokens, the step hands exactly
that trimmed text to the scorer. -/
theorem processAccumulatedContent_scored (st : HookState) (now : Int)
    (produced : String → Bool) (h : minContentLength ≤ splitSpaceCount (jsTrim st.accumulated)) :
    (processAccumulatedContent st now produced).2 = some (jsTrim st.accumulated) := by
  unfold processAccumulatedContent
  rw [if_pos ⟨ne_empty_of_splitSpaceCount _ h, h⟩]

/-- Inversion of `processAccumulatedContent`: a scored candidate is the
trimmed buffer, non-empty and above the word gate. -/
theorem processAccumulatedContent_scored_inv (st : HookState) (now : Int)
    (produced : String → Bool) (c : String)
    (h : (processAccumulatedContent st now produced).2 = some c) :
    c = jsTrim st.accumulated ∧ c ≠ "" ∧ minContentLength ≤ splitSpaceCount c := by
  simp only [processAccumulatedContent] at h
  split at h
  · next hc =>
    obtain ⟨hne, hle⟩ := hc
    simp only [Option.some.injEq] at h
    subst h
    exact ⟨rfl, hne, hle⟩
  · simp at h

/-- A list with a non-whitespace head survives as a suffix of leading
whitespace removal of anything appended in front of it. -/
theorem suffix_dropWhile_append (m : List Char)
    (hm : ∃ c t, m = c :: t ∧ isWS c = false) :
    ∀ x : List Char, m <:+ (x ++ m).dropWhile isWS := by
  intro x
  induction x with
  | nil =>
    obtain ⟨c, t, rfl, hc⟩ := hm
    rw [List.nil_append, List.dropWhile_cons_of_neg (by simp [hc])]
  | cons c x ih =>
    rw [List.cons_append]
    by_cases hc : isWS c = true
    · rw [List.dropWhile_cons_of_pos hc]
      exact ih
    · rw [List.dropWhile_cons_of_neg hc]
      exact (List.suffix_append x m).trans (List.suffix_cons c (x ++ m))

/-- Dropping leading whitespace is the identity on a list whose head is not
whitespace. -/
theorem dropWhile_eq_self_of_head (l q : List Char)
    (h : ∃ c t, l = c :: t ∧ isWS c = false) :
    (l ++ q).dropWhile isWS = l ++ q := by
  obtain ⟨c, t, rfl, hc⟩ := h
  rw [List.cons_append, List.dropWhile_cons_of_neg (by simp [hc])]

/-- Appending the fallback phrase and trimming leaves the phrase as a
suffix: the trimmed characters decompose as some prefix followed by the
phrase. -/
theorem fallback_trim_decomp (acc : String) :
    ∃ z, (jsTrim (acc ++ " " ++ fallbackMessage)).data =
      z ++ fallbackMessage.data := by
  have hdata : (acc ++ " " ++ fallbackMessage).data =
      (acc.data ++ [' ']) ++ fallbackMessage.data := by
    rw [String.data_append, String.data_append]
  have hhead : ∃ c t, fallbackMessage.data = c :: t ∧ isWS c = false :=
    ⟨'S', _, rfl, rfl⟩
  have hsuf := suffix_dropWhile_append fallbackMessage.data hhead (acc.data ++ [' '])
  obtain ⟨z, hz⟩ := hsuf
  refine ⟨z, ?_⟩
  show jsTrimList (acc ++ " " ++ fallbackMessage).data = z ++ fallbackMessage.data
  rw [hdata]
  unfold jsTrimList
  rw [← hz, List.reverse_append]
  rw [dropWhile_eq_self_of_head fallbackMessage.data.reverse z.reverse ⟨'.', _, rfl, rfl⟩]
  rw [List.reverse_append, List.reverse_reverse, List.reverse_reverse]

/-- After appending the fallback phrase, the trimmed buffer always clears
the minimum word gate (the phrase alone has five space-separated tokens). -/
theorem fallback_gate (acc : String) :
    minContentLength ≤ splitSpaceCount (jsTrim (acc ++ " " ++ fallbackMessage)) := by
  obtain ⟨z, hz⟩ := fallback_trim_decomp acc
  unfold splitSpaceCount
  rw [hz, length_splitOnSpace, List.countP_append]
  have : fallbackMessage.data.countP (fun c => c == ' ') = 4 := rfl
  rw [this]
  unfold minContentLength
  omega

/-- The Levenshtein recurrence gives distance zero between equal prefixes
of the same string, for every fuel. -/
theorem levMatrixF_self (a : List Char) :
    ∀ fuel i, levMatrixF a a fuel i i = 0 := by
  intro fuel
  induction fuel with
  | zero =>
    intro i
    cases i with
    | zero => rfl
    | succ i => rfl
  | succ fuel ih =>
    intro i
    cases i with
    | zero => rfl
    | succ i =>
      show min (levMatrixF a a fuel i (i + 1) + 1)
          (min (levMatrixF a a fuel (i + 1) i + 1)
            (levMatrixF a a fuel i i +
              if a.getD i ' ' = a.getD i ' ' then 0 else 1)) = 0
      rw [if_pos rfl, ih i]
      simp

/-- The Levenshtein matrix has a zero diagonal corner on equal strings. -/
theorem levMatrix_self (a : List Char) (n : Nat) : levMatrix a a n n = 0 :=
  levMatrixF_self a (n + n) n

/-- The proper-nouns scanner never fires on a list without ASCII uppercase
letters. -/
theorem properNounsScan_eq_false (l : List Char)
    (h : ∀ c ∈ l, isAsciiUpper c = false) :
    ∀ rev, properNounsScan rev l = false := by
  induction l with
  | nil => intro rev; rfl
  | cons c r ih =>
    intro rev
    unfold properNounsScan
    rw [h c (List.mem_cons_self c r)]
    simp only [Bool.false_and, Bool.false_or]
    exact ih (fun d hd => h d (List.mem_cons_of_mem c hd)) (c :: rev)

/-- Every character of the trimmed list is a character of the list. -/
theorem mem_of_mem_jsTrimList (c : Char) (l : List Char)
    (h : c ∈ jsTrimList l) : c ∈ l := by
  unfold jsTrimList at h
  rw [List.mem_reverse] at h
  have h2 := (List.dropWhile_sublist (l := (l.dropWhile isWS).reverse) isWS).subset h
  rw [List.mem_reverse] at h2
  exact (List.dropWhile_sublist isWS).subset h2

/-- Counting the words of one duplicate-free list occurring in another is
symmetric: both directions count the intersection of the word sets. -/
theorem filter_contains_length_comm (l1 l2 : List String)
    (h1 : l1.Nodup) (h2 : l2.Nodup) :
    (l1.filter fun word => l2.contains word).length =
      (l2.filter fun word => l1.contains word).length := by
  have key : ∀ a b : List String, a.Nodup →
      (a.filter fun word => b.contains word).length =
        (a.toFinset ∩ b.toFinset).card := by
    intro a b ha
    rw [← List.toFinset_card_of_nodup (ha.filter _), List.toFinset_filter]
    congr 1
    ext w
    simp [Finset.mem_filter, List.mem_toFinset]
  rw [key l1 l2 h1, key l2 l1 h2, Finset.inter_comm]

/-- When the gate passes, `processAccumulatedContent` clears the buffer. -/
theorem processAccumulatedContent_clears (st : HookState) (now : Int)
    (produced : String → Bool)
    (h : minContentLength ≤ splitSpaceCount (jsTrim st.accumulated)) :
    (processAccumulatedContent st now produced).1.accumulated = "" := by
  unfold processAccumulatedContent
  rw [if_pos ⟨ne_empty_of_splitSpaceCount _ h, h⟩]

/-! Claim theorems. -/

/-- C3 counterexample: on session stop with the non-empty buffer `" hi"`
(one word after trimming), nothing is handed to the quality scorer — the
claim that a non-empty buffer below `minContentLength` words is still
finalized and scored on stop is false. -/
theorem stopRecording_short_buffer_not_scored :
    jsTrim " hi" ≠ "" ∧
    (stopRecording ⟨" hi", none, 0, [], 0, []⟩ 5 (fun _ => true)).2 = none ∧
    (stopRecording ⟨" hi", none, 0, [], 0, []⟩ 5 (fun _ => true)).1.accumulated = " hi" :=
  ⟨by decide, by decide, by decide⟩

/-- C3 (amended): on session stop the flush bypasses only the
minimum-time-between-notes gate — no timing hypothesis is needed and `now`
may coincide with the last flush time — while the minimum-word-count gate
of `processAccumulatedContent` still applies: the buffer is finalized and
handed to the quality scorer exactly when its trimmed text has at least
`minContentLength` space-separated tokens. -/
theorem stopRecording_flush_bypasses_time_gate (st : HookState) (now : Int)
    (produced : String → Bool) :
    (stopRecording st now produced).2 = some (jsTrim st.accumulated) ↔
      minContentLength ≤ splitSpaceCount (jsTrim st.accumulated) := by
  constructor
  · intro h
    unfold stopRecording at h
    split at h
    · exact (processAccumulatedContent_scored_inv st now produced _ h).2.2
    · simp at h
  · intro h
    unfold stopRecording
    rw [if_pos (ne_empty_of_splitSpaceCount _ h)]
    exact processAccumulatedContent_scored st now produced h

/-- C3 witness: a three-word buffer is flushed on stop even when no time
has elapsed since the last flush (`now` equals `lastProcessing`). -/
theorem stopRecording_flush_witness :
    minContentLength ≤ splitSpaceCount (jsTrim "a b c") ∧
    (stopRecording ⟨"a b c", none, 100, [], 0, []⟩ 100 (fun _ => true)).2 =
      some (jsTrim "a b c") :=
  ⟨by decide,
   (stopRecording_flush_bypasses_time_gate ⟨"a b c", none, 100, [], 0, []⟩ 100
     (fun _ => true)).mpr (by decide)⟩

/-- C5: the fallback phrase is never appended while the buffer already
contains it (so it is present at most once), and when it is appended — at
the error threshold — the buffer is immediately flushed to the scorer and
cleared, before any further accumulation can happen. -/
theorem fallback_appended_at_most_once (st : HookState) (now : Int)
    (produced : String → Bool) :
    (containsStr st.accumulated fallbackMessage = true →
      (handleTranscriptionError st now produced).1.accumulated = st.accumulated ∧
      (handleTranscriptionError st now produced).2 = none) ∧
    (containsStr st.accumulated fallbackMessage = false →
      maxTranscriptionErrors ≤ st.errorCount + 1 →
      (handleTranscriptionError st now produced).2 =
        some (jsTrim (st.accumulated ++ " " ++ fallbackMessage)) ∧
      (handleTranscriptionError st now produced).1.accumulated = "") := by
  constructor
  · intro hc
    simp only [handleTranscriptionError]
    by_cases hmax : maxTranscriptionErrors ≤ st.errorCount + 1
    · rw [if_pos hmax, if_pos hc]
      exact ⟨rfl, rfl⟩
    · rw [if_neg hmax]
      exact ⟨rfl, rfl⟩
  · intro hc hmax
    simp only [handleTranscriptionError]
    rw [if_pos hmax, if_neg (by simp [hc])]
    constructor
    · exact processAccumulatedContent_scored _ now produced (fallback_gate st.accumulated)
    · exact processAccumulatedContent_clears _ now produced (fallback_gate st.accumulated)

/-- C5 witness: the third consecutive error on an empty buffer appends the
phrase, flushes it to the scorer and clears the buffer. -/
theorem fallback_witness :
    containsStr "" fallbackMessage = false ∧
    (handleTranscriptionError ⟨"", none, 0, [], 2, []⟩ 7 (fun _ => true)).2 =
      some (jsTrim ("" ++ " " ++ fallbackMessage)) ∧
    (handleTranscriptionError ⟨"", none, 0, [], 2, []⟩ 7 (fun _ => true)).1.accumulated = "" :=
  ⟨by decide,
   ((fallback_appended_at_most_once ⟨"", none, 0, [], 2, []⟩ 7 (fun _ => true)).2
     (by decide) (by decide)).1,
   ((fallback_appended_at_most_once ⟨"", none, 0, [], 2, []⟩ 7 (fun _ => true)).2
     (by decide) (by decide)).2⟩

/-- C8: no flush path — direct processing, pause/length rule, staleness
rule on transcript arrival, error fallback, chunk processing, or session
stop — ever hands an empty candidate text to the quality scorer. -/
theorem flush_candidates_nonempty :
    (∀ st now produced c,
      (processAccumulatedContent st now produced).2 = some c → c ≠ "") ∧
    (∀ st now produced c,
      (checkForSpeechPause st now produced).2 = some c → c ≠ "") ∧
    (∀ st text now produced c,
      (appendTranscript st text now produced).2 = some c → c ≠ "") ∧
    (∀ st now produced c,
      (handleTranscriptionError st now produced).2 = some c → c ≠ "") ∧
    (∀ st now result produced c,
      (processAudioChunks st now result produced).2.scored = some c → c ≠ "") ∧
    (∀ st now produced c,
      (stopRecording st now produced).2 = some c → c ≠ "") := by
  have hpac : ∀ st now produced c,
      (processAccumulatedContent st now produced).2 = some c → c ≠ "" :=
    fun st now p c h => (processAccumulatedContent_scored_inv st now p c h).2.1
  have hpause : ∀ st now produced c,
      (checkForSpeechPause st now produced).2 = some c → c ≠ "" := by
    intro st now p c h
    simp only [checkForSpeechPause] at h
    split at h
    · exact hpac _ _ _ _ h
    · split at h
      · simp at h
      · split at h
        · split at h
          · simp at h
          · split at h
            · split at h
              · exact hpac _ _ _ _ h
              · simp at h
            · simp at h
        · simp at h
  have happ : ∀ st text now produced c,
      (appendTranscript st text now produced).2 = some c → c ≠ "" := by
    intro st text now p c h
    simp only [appendTranscript] at h
    split at h
    · exact hpac _ _ _ _ h
    · simp at h
  have herr : ∀ st now produced c,
      (handleTranscriptionError st now produced).2 = some c → c ≠ "" := by
    intro st now p c h
    simp only [handleTranscriptionError] at h
    split at h
    · split at h
      · simp at h
      · exact hpac _ _ _ _ h
    · simp at h
  have hptr : ∀ st now result produced c,
      (processTranscriptionResult st now result produced).2 = some c → c ≠ "" := by
    intro st now result p c h
    cases result with
    | none => exact herr _ _ _ _ h
    | some text =>
      simp only [processTranscriptionResult] at h
      split at h
      · exact happ _ _ _ _ _ h
      · exact herr _ _ _ _ h
  refine ⟨hpac, hpause, happ, herr, ?_, ?_⟩
  · intro st now result p c h
    simp only [processAudioChunks] at h
    split at h
    · split at h
      · simp at h
      · exact hptr _ _ _ _ _ h
    · simp at h
  · intro st now p c h
    unfold stopRecording at h
    split at h
    · exact hpac _ _ _ _ h
    · simp at h

set_option maxRecDepth 40000 in
/-- C8 witness: each flush path instantiated at a concrete state where it
fires, with the scored candidate visibly non-empty. -/
theorem flush_candidates_nonempty_witness :
    ("x y z" : String) ≠ "" ∧
    String.mk (List.intersperse ' ' (List.replicate 150 'a')) ≠ "" ∧
    ("p q r" : String) ≠ "" ∧
    ("Speech detected but transcription unavailable." : String) ≠ "" ∧
    ("a b c d" : String) ≠ "" ∧
    ("s t u" : String) ≠ "" :=
  ⟨flush_candidates_nonempty.1 ⟨" x y z", none, 0, [], 0, []⟩ 0 (fun _ => true)
     "x y z" (by rfl),
   flush_candidates_nonempty.2.1
     ⟨String.mk (List.intersperse ' ' (List.replicate 150 'a')), none, 0, [], 0, []⟩
     801 (fun _ => true)
     (String.mk (List.intersperse ' ' (List.replicate 150 'a'))) (by rfl),
   flush_candidates_nonempty.2.2.1 ⟨"p q", none, 0, [], 0, []⟩ "r" 4000
     (fun _ => true) "p q r" (by rfl),
   flush_candidates_nonempty.2.2.2.1 ⟨"", none, 0, [], 2, []⟩ 7 (fun _ => true)
     "Speech detected but transcription unavailable." (by rfl),
   flush_candidates_nonempty.2.2.2.2.1 ⟨"a b c", none, 0, [], 0, [800]⟩ 4000
     (some "d") (fun _ => true) "a b c d" (by rfl),
   flush_candidates_nonempty.2.2.2.2.2 ⟨" s t u", none, 0, [], 0, []⟩ 9
     (fun _ => true) "s t u" (by rfl)⟩

/-- C9: a non-empty chunk list assembling to a blob smaller than
`minViableBlobSize` bytes is discarded — transcription is not invoked, no
candidate is scored, the error counter and the buffer are untouched, and
recording resumes. -/
theorem undersized_blob_discarded (st : HookState) (now : Int)
    (result : Option String) (produced : String → Bool)
    (hne : 0 < st.audioChunks.length)
    (hsize : st.audioChunks.sum < minViableBlobSize) :
    (processAudioChunks st now result produced).2.transcriptionInvoked = false ∧
    (processAudioChunks st now result produced).2.scored = none ∧
    (processAudioChunks st now result produced).2.recordingRestarted = true ∧
    (processAudioChunks st now result produced).1.errorCount = st.errorCount ∧
    (processAudioChunks st now result produced).1.accumulated = st.accumulated := by
  simp only [processAudioChunks]
  rw [if_pos hne, if_pos hsize]
  exact ⟨rfl, rfl, rfl, rfl, rfl⟩

/-- C9 witness: two chunks of 100 and 200 bytes assemble to a 300-byte
blob, which is discarded with the error counter still at 4. -/
theorem undersized_blob_witness :
    0 < ([100, 200] : List Nat).length ∧
    ([100, 200] : List Nat).sum < minViableBlobSize ∧
    (processAudioChunks ⟨"buf", none, 0, [], 4, [100, 200]⟩ 7 none
      (fun _ => true)).2.transcriptionInvoked = false ∧
    (processAudioChunks ⟨"buf", none, 0, [], 4, [100, 200]⟩ 7 none
      (fun _ => true)).1.errorCount = 4 :=
  ⟨by decide, by decide,
   (undersized_blob_discarded ⟨"buf", none, 0, [], 4, [100, 200]⟩ 7 none
     (fun _ => true) (by decide) (by decide)).1,
   (undersized_blob_discarded ⟨"buf", none, 0, [], 4, [100, 200]⟩ 7 none
     (fun _ => true) (by decide) (by decide)).2.2.2.1⟩

/-- C2 counterexample: the word-overlap similarity is not symmetric when a
word repeats — every word of `"a a"` occurs in `"a b"` (overlap 2 of 2),
but only one word of `"a b"` occurs in `"a a"` (overlap 1 of 2). -/
theorem simple_similarity_not_symm :
    calculateSimpleStringSimilarity "a a" "a b" ≠
      calculateSimpleStringSimilarity "a b" "a a" := by
  have h1 : calculateSimpleStringSimilarity "a a" "a b" = 1 := by
    simp only [calculateSimpleStringSimilarity]
    rw [show jsToLower "a a" = "a a" from rfl, show jsToLower "a b" = "a b" from rfl,
      if_neg (by decide : ¬("a a" : String) = "a b"),
      if_neg (by decide :
        ¬(("a a" : String).data.length = 0 ∨ ("a b" : String).data.length = 0)),
      show jsSplitWs "a a" = ["a", "a"] from rfl,
      show jsSplitWs "a b" = ["a", "b"] from rfl,
      show (List.filter (fun word => List.contains ["a", "b"] word) ["a", "a"]) =
        ["a", "a"] from rfl]
    norm_num
  have h2 : calculateSimpleStringSimilarity "a b" "a a" = 1 / 2 := by
    simp only [calculateSimpleStringSimilarity]
    rw [show jsToLower "a b" = "a b" from rfl, show jsToLower "a a" = "a a" from rfl,
      if_neg (by decide : ¬("a b" : String) = "a a"),
      if_neg (by decide :
        ¬(("a b" : String).data.length = 0 ∨ ("a a" : String).data.length = 0)),
      show jsSplitWs "a b" = ["a", "b"] from rfl,
      show jsSplitWs "a a" = ["a", "a"] from rfl,
      show (List.filter (fun word => List.contains ["a", "a"] word) ["a", "b"]) =
        ["a"] from rfl]
    norm_num
  rw [h1, h2]
  norm_num

/-- C2 (amended): the word-overlap similarity is order-independent whenever
neither lowercased string contains a repeated word (then both directions
count the same set intersection against the same larger word count). -/
theorem simple_similarity_symm_of_nodup (a b : String)
    (ha : (jsSplitWs (jsToLower a)).Nodup) (hb : (jsSplitWs (jsToLower b)).Nodup) :
    calculateSimpleStringSimilarity a b = calculateSimpleStringSimilarity b a := by
  simp only [calculateSimpleStringSimilarity]
  by_cases h1 : jsToLower a = jsToLower b
  · rw [if_pos h1, if_pos h1.symm]
  · have h1' : ¬jsToLower b = jsToLower a := fun h => h1 h.symm
    rw [if_neg h1, if_neg h1']
    by_cases h2 : (jsToLower a).data.length = 0 ∨ (jsToLower b).data.length = 0
    · have h2' : (jsToLower b).data.length = 0 ∨ (jsToLower a).data.length = 0 :=
        Or.symm h2
      rw [if_pos h2, if_pos h2']
    · have h2' : ¬((jsToLower b).data.length = 0 ∨ (jsToLower a).data.length = 0) :=
        fun h => h2 (Or.symm h)
      rw [if_neg h2, if_neg h2']
      rw [filter_contains_length_comm _ _ ha hb, max_comm]

/-- C2 witness: two duplicate-free two-word strings compare symmetrically. -/
theorem simple_similarity_symm_witness :
    (jsSplitWs (jsToLower "x y")).Nodup ∧ (jsSplitWs (jsToLower "y z")).Nodup ∧
    calculateSimpleStringSimilarity "x y" "y z" =
      calculateSimpleStringSimilarity "y z" "x y" :=
  ⟨by decide, by decide,
   simple_similarity_symm_of_nodup "x y" "y z" (by decide) (by decide)⟩

/-- C6 counterexample: both similarity measures return 1 (not 0) when both
arguments are the empty string, because the identical-strings check runs
before the empty-string check. -/
theorem similarity_empty_empty_eq_one :
    calculateStringSimilarity "" "" = 1 ∧
    calculateSimpleStringSimilarity "" "" = 1 ∧ (1 : ℚ) ≠ 0 :=
  ⟨rfl, rfl, by norm_num⟩

/-- C6 (amended): for both measures, any non-empty string is perfectly
similar to itself; a non-empty string compared with the empty string (in
either order) scores 0; and both measures are invariant under lowercasing
their arguments. The only change from the claim is that the zero-score
clause excludes the pair of two empty strings, which scores 1. -/
theorem similarity_identity_empty_cases :
    (∀ s : String, s ≠ "" →
      calculateStringSimilarity s s = 1 ∧ calculateSimpleStringSimilarity s s = 1) ∧
    (∀ s : String, s ≠ "" →
      calculateStringSimilarity s "" = 0 ∧ calculateStringSimilarity "" s = 0 ∧
      calculateSimpleStringSimilarity s "" = 0 ∧
      calculateSimpleStringSimilarity "" s = 0) ∧
    (∀ a b : String,
      calculateStringSimilarity (jsToLower a) (jsToLower b) =
        calculateStringSimilarity a b ∧
      calculateSimpleStringSimilarity (jsToLower a) (jsToLower b) =
        calculateSimpleStringSimilarity a b) := by
  have hdatalen : ∀ s : String, s.data.length = 0 ↔ s = "" := by
    intro s
    cases s with
    | mk l =>
      rw [List.length_eq_zero, string_eq_empty_iff]
  have hlowlen : ∀ s : String, (jsToLower s).data.length = s.data.length := by
    intro s
    simp [jsToLower]
  refine ⟨?_, ?_, ?_⟩
  · intro s _
    constructor
    · simp [calculateStringSimilarity]
    · simp [calculateSimpleStringSimilarity]
  · intro s hs
    refine ⟨?_, ?_, ?_, ?_⟩
    · simp only [calculateStringSimilarity]
      rw [if_neg hs,
        if_pos (Or.inr (show ("" : String).data.length = 0 from rfl))]
    · simp only [calculateStringSimilarity]
      rw [if_neg (show ¬("" : String) = s from fun h => hs h.symm),
        if_pos (Or.inl (show ("" : String).data.length = 0 from rfl))]
    · simp only [calculateSimpleStringSimilarity]
      rw [show jsToLower "" = "" from rfl,
        if_neg (show ¬jsToLower s = "" from
          fun h => hs ((jsToLower_eq_empty_iff s).mp h)),
        if_pos (Or.inr (show ("" : String).data.length = 0 from rfl))]
    · simp only [calculateSimpleStringSimilarity]
      rw [show jsToLower "" = "" from rfl,
        if_neg (show ¬("" : String) = jsToLower s from
          fun h => hs ((jsToLower_eq_empty_iff s).mp h.symm)),
        if_pos (Or.inl (show ("" : String).data.length = 0 from rfl))]
  · intro a b
    constructor
    · by_cases hab : a = b
      · subst hab
        simp [calculateStringSimilarity]
      · by_cases hlow : jsToLower a = jsToLower b
        · have hae : a ≠ "" := by
            intro h
            subst h
            exact hab (((jsToLower_eq_empty_iff b).mp hlow.symm).symm)
          have hbe : b ≠ "" := by
            intro h
            subst h
            exact hab ((jsToLower_eq_empty_iff a).mp hlow)
          have hlen : ¬(a.data.length = 0 ∨ b.data.length = 0) := by
            rw [hdatalen, hdatalen]
            rintro (h | h)
            · exact hae h
            · exact hbe h
          simp only [calculateStringSimilarity]
          rw [if_pos hlow, if_neg hab, if_neg hlen, hlow, max_self]
          by_cases hn : (jsTrim (jsToLower b)).data.length = 0
          · rw [if_pos hn]
          · rw [if_neg hn, levMatrix_self]
            simp
        · simp only [calculateStringSimilarity]
          by_cases hempty : a.data.length = 0 ∨ b.data.length = 0
          · have hempty' :
                (jsToLower a).data.length = 0 ∨ (jsToLower b).data.length = 0 := by
              rw [hlowlen, hlowlen]
              exact hempty
            rw [if_neg hlow, if_neg hab, if_pos hempty', if_pos hempty]
          · have hempty' :
                ¬((jsToLower a).data.length = 0 ∨ (jsToLower b).data.length = 0) := by
              rw [hlowlen, hlowlen]
              exact hempty
            rw [if_neg hlow, if_neg hab, if_neg hempty', if_neg hempty,
              jsToLower_idem, jsToLower_idem]
    · simp only [calculateSimpleStringSimilarity, jsToLower_idem]

/-- C6 witness: the amended clauses at concrete inputs, including the
case-insensitivity of both measures on `"Hello"` versus `"hello"`. -/
theorem similarity_identity_witness :
    ("hello" : String) ≠ "" ∧
    calculateStringSimilarity "hello" "hello" = 1 ∧
    calculateSimpleStringSimilarity "hello" "hello" = 1 ∧
    calculateStringSimilarity "hello" "" = 0 ∧
    calculateSimpleStringSimilarity "" "hello" = 0 ∧
    calculateStringSimilarity (jsToLower "Hello") (jsToLower "hello") =
      calculateStringSimilarity "Hello" "hello" :=
  ⟨by decide,
   (similarity_identity_empty_cases.1 "hello" (by decide)).1,
   (similarity_identity_empty_cases.1 "hello" (by decide)).2,
   (similarity_identity_empty_cases.2.1 "hello" (by decide)).1,
   (similarity_identity_empty_cases.2.1 "hello" (by decide)).2.2.2,
   (similarity_identity_empty_cases.2.2 "Hello" "hello").1⟩

/-- C4 counterexample: with the last five samples silent, silence tracked
for 400 ms, four buffered tokens and exactly 800 ms since the last flush —
all conditions of the claim, which demands a flush at `≥ 800 ms` — the
segmenter does not flush, because the code requires strictly more than
`minTimeBetweenNotes`. -/
theorem pause_flush_not_at_exact_gate :
    5 ≤ ([0, 0, 0, 0, 0] : List ℚ).length ∧
    (([0, 0, 0, 0, 0] : List ℚ).drop (([0, 0, 0, 0, 0] : List ℚ).length - 5)).all
      (fun level => decide (level < minSilenceLevel)) = true ∧
    pauseDetectionThreshold ≤ (800 : Int) - 0 ∧
    minContentLength ≤ splitSpaceCount " a b c" ∧
    minContentLength ≤ splitSpaceCount (jsTrim " a b c") ∧
    minTimeBetweenNotes ≤ (800 : Int) - 0 ∧
    (checkForSpeechPause ⟨" a b c", some 0, 0, [0, 0, 0, 0, 0], 0, []⟩ 800
      (fun _ => true)).2 = none := by
  refine ⟨by decide, ?_, by decide, by decide, by decide, by decide, ?_⟩
  · norm_num [minSilenceLevel]
  · have hcount : splitSpaceCount " a b c" = 4 := rfl
    simp only [checkForSpeechPause]
    rw [if_neg (by norm_num [hcount, maxContentLength, minTimeBetweenNotes])]
    rw [if_neg (by norm_num)]
    rw [if_pos (by norm_num [minSilenceLevel])]
    rw [if_pos (by norm_num [pauseDetectionThreshold])]
    rw [if_neg (by norm_num [hcount, minContentLength, minTimeBetweenNotes])]

/-- C4 (amended): the pause rule fires exactly as claimed except that the
time gate is strict — with at least five samples of history, the last five
all below `minSilenceLevel`, silence tracked since `t0` for at least
`pauseDetectionThreshold`, at least `minContentLength` space-tokens in the
raw buffer and in its trimmed text (the flush gate re-counts on the
trimmed text), and strictly more than `minTimeBetweenNotes` elapsed since
the last flush, the buffer is flushed to the scorer. -/
theorem pause_flush_fires (st : HookState) (now : Int) (produced : String → Bool)
    (t0 : Int)
    (hlen : 5 ≤ st.audioLevelHistory.length)
    (hsilent : (st.audioLevelHistory.drop (st.audioLevelHistory.length - 5)).all
      (fun level => decide (level < minSilenceLevel)) = true)
    (hstart : st.silenceStart = some t0)
    (hdur : pauseDetectionThreshold ≤ now - t0)
    (hwc : minContentLength ≤ splitSpaceCount st.accumulated)
    (hgate : minContentLength ≤ splitSpaceCount (jsTrim st.accumulated))
    (htime : minTimeBetweenNotes < now - st.lastProcessing) :
    (checkForSpeechPause st now produced).2 = some (jsTrim st.accumulated) := by
  simp only [checkForSpeechPause]
  by_cases hmax : maxContentLength ≤ splitSpaceCount st.accumulated ∧
      minTimeBetweenNotes < now - st.lastProcessing
  · rw [if_pos hmax]
    exact processAccumulatedContent_scored st now produced hgate
  · rw [if_neg hmax, if_neg (by omega : ¬st.audioLevelHistory.length < 5)]
    rw [if_pos hsilent, hstart]
    simp only []
    rw [if_pos hdur, if_pos ⟨hwc, htime⟩]
    exact processAccumulatedContent_scored st now produced hgate

/-- C4 witness: the same state one millisecond later (801 ms elapsed,
strictly above the gate) does flush the trimmed buffer. -/
theorem pause_flush_fires_witness :
    minTimeBetweenNotes < (801 : Int) - 0 ∧
    (checkForSpeechPause ⟨" a b c", some 0, 0, [0, 0, 0, 0, 0], 0, []⟩ 801
      (fun _ => true)).2 = some (jsTrim " a b c") :=
  ⟨by decide,
   pause_flush_fires ⟨" a b c", some 0, 0, [0, 0, 0, 0, 0], 0, []⟩ 801
     (fun _ => true) 0 (by decide) (by norm_num [minSilenceLevel]) rfl
     (by decide) (by decide) (by decide) (by decide)⟩

/-- C1: the scorer always returns a score inside `[0, 1]`; a noteworthy
verdict implies a score of at least the 0.15 threshold; empty or
whitespace-only input scores exactly 0 and is not noteworthy; fewer than 3
words score exactly 0.1 and are not noteworthy; and on the remaining path
the verdict is exactly the comparison of the clamped score with the
threshold. -/
theorem analyzeContentQuality_bounds (text : String) :
    0 ≤ (analyzeContentQuality text).score ∧
    (analyzeContentQuality text).score ≤ 1 ∧
    ((analyzeContentQuality text).isNoteworthy = true →
      noteworthyThreshold ≤ (analyzeContentQuality text).score) ∧
    (jsTrim text = "" →
      (analyzeContentQuality text).score = 0 ∧
      (analyzeContentQuality text).isNoteworthy = false) ∧
    (jsTrim text ≠ "" → (jsSplitWs (jsTrim (jsToLower text))).length < 3 →
      (analyzeContentQuality text).score = 1 / 10 ∧
      (analyzeContentQuality text).isNoteworthy = false) ∧
    (jsTrim text ≠ "" → 3 ≤ (jsSplitWs (jsTrim (jsToLower text))).length →
      ((analyzeContentQuality text).isNoteworthy = true ↔
        noteworthyThreshold ≤ (analyzeContentQuality text).score)) := by
  by_cases hempty : jsTrim text = ""
  · have h : analyzeContentQuality text = ⟨0, false⟩ := by
      simp only [analyzeContentQuality]
      rw [if_pos hempty]
    rw [h]
    refine ⟨le_refl 0, by norm_num, by simp, fun _ => ⟨rfl, rfl⟩,
      fun hne _ => absurd hempty hne, fun hne _ => absurd hempty hne⟩
  · by_cases hshort : (jsSplitWs (jsTrim (jsToLower text))).length < 3
    · have h : analyzeContentQuality text = ⟨1 / 10, false⟩ := by
        simp only [analyzeContentQuality]
        rw [if_neg hempty, if_pos hshort]
      rw [h]
      refine ⟨by norm_num, by norm_num, by simp, fun he => absurd he hempty,
        fun _ _ => ⟨rfl, rfl⟩, fun _ hge => absurd hshort (by omega)⟩
    · have hS : analyzeContentQuality text =
          ⟨max 0 (min 1 (rawScore (jsTrim (jsToLower text))
              (jsSplitWs (jsTrim (jsToLower text))).length)),
            decide (noteworthyThreshold ≤
              max 0 (min 1 (rawScore (jsTrim (jsToLower text))
                (jsSplitWs (jsTrim (jsToLower text))).length)))⟩ := by
        simp only [analyzeContentQuality]
        rw [if_neg hempty, if_neg hshort]
      rw [hS]
      refine ⟨le_max_left 0 _, max_le (by norm_num) (min_le_left 1 _), ?_,
        fun he => absurd he hempty, fun _ hlt => absurd hlt hshort, fun _ _ => ?_⟩
      · intro h
        exact of_decide_eq_true h
      · exact decide_eq_true_iff

/-- C1 witness: the two-character input `"hi"` takes the too-short path
with score exactly 0.1 and a negative verdict. -/
theorem analyzeContentQuality_bounds_witness :
    jsTrim "hi" ≠ "" ∧ (jsSplitWs (jsTrim (jsToLower "hi"))).length < 3 ∧
    (analyzeContentQuality "hi").score = 1 / 10 ∧
    (analyzeContentQuality "hi").isNoteworthy = false :=
  ⟨by decide, by decide,
   ((analyzeContentQuality_bounds "hi").2.2.2.2.1 (by decide) (by decide)).1,
   ((analyzeContentQuality_bounds "hi").2.2.2.2.1 (by decide) (by decide)).2⟩

/-- C7: the all-filler input `"um, so, yeah"` (three words, no indicator
matches, two filler tokens) scores `0.15 - (2/3)*0.1 = 1/12 ≤ 0.15` and is
not noteworthy. -/
theorem filler_scenario_not_noteworthy :
    (analyzeContentQuality "um, so, yeah").score ≤ noteworthyThreshold ∧
    (analyzeContentQuality "um, so, yeah").isNoteworthy = false := by
  have hraw : rawScore "um, so, yeah" 3 = 1 / 12 := by
    simp only [rawScore]
    rw [show numbersTest "um, so, yeah" = false from rfl,
      show properNounsTest "um, so, yeah" = false from rfl,
      show followedByWsTest factualWords "um, so, yeah" = false from rfl,
      show containsAnyWord technicalWords "um, so, yeah" = false from rfl,
      show containsAnyWord comparisonWords "um, so, yeah" = false from rfl,
      show timeRefsTest "um, so, yeah" = false from rfl,
      show containsAnyWord causalWords "um, so, yeah" = false from rfl,
      show containsAnyWord structuredWords "um, so, yeah" = false from rfl,
      show containsAnyWord definitionWords "um, so, yeah" = false from rfl,
      show containsAnyWord nameWords "um, so, yeah" = false from rfl,
      show containsAnyWord workWords "um, so, yeah" = false from rfl,
      show containsAnyWord locationWords "um, so, yeah" = false from rfl,
      show containsAnyWord actionWords "um, so, yeah" = false from rfl,
      show fillerCountOf "um, so, yeah" = 2 from rfl,
      show questionTest "um, so, yeah" = false from rfl]
    norm_num
  simp only [analyzeContentQuality]
  rw [if_neg (by decide : ¬jsTrim "um, so, yeah" = "")]
  rw [show jsTrim (jsToLower "um, so, yeah") = "um, so, yeah" from rfl]
  rw [if_neg (by decide : ¬(jsSplitWs ("um, so, yeah" : String)).length < 3)]
  rw [show (jsSplitWs ("um, so, yeah" : String)).length = 3 from rfl, hraw]
  constructor <;>
    norm_num [noteworthyThreshold, min_def, max_def]

/-- C10: the scorer is invariant under lowercasing its input (score and
verdict agree), and the proper-nouns indicator — an uppercase-letter
pattern tested against the already lowercased text — never fires on any
input. -/
theorem analyzeContentQuality_case_insensitive :
    (∀ text : String,
      analyzeContentQuality (jsToLower text) = analyzeContentQuality text) ∧
    (∀ text : String, properNounsTest (jsTrim (jsToLower text)) = false) := by
  have hpn : ∀ text : String, properNounsTest (jsTrim (jsToLower text)) = false := by
    intro text
    unfold properNounsTest
    apply properNounsScan_eq_false
    intro c hc
    have hc2 : c ∈ (jsToLower text).data := mem_of_mem_jsTrimList c _ hc
    simp only [jsToLower] at hc2
    obtain ⟨d, _, rfl⟩ := List.mem_map.mp hc2
    exact isAsciiUpper_lowerChar d
  refine ⟨?_, hpn⟩
  intro text
  by_cases h : jsTrim text = ""
  · have h2 : jsTrim (jsToLower text) = "" :=
      (jsTrim_jsToLower_eq_empty_iff text).mpr h
    simp only [analyzeContentQuality]
    rw [if_pos h, if_pos h2]
  · have h2 : ¬jsTrim (jsToLower text) = "" :=
      fun hc => h ((jsTrim_jsToLower_eq_empty_iff text).mp hc)
    simp only [analyzeContentQuality]
    rw [if_neg h, if_neg h2, jsToLower_idem]

end VoxNoto
